import Mathlib

/-!
Shallow embedding of the platform configuration module `src/platform-aws.c`
of the open-ofi-xccl repository, together with theorems settling the
specification claims about it.

Conventions used throughout:
* C integers are modelled as `Int`; errno constants appear literally
  (`EIO = 5`, `EINVAL = 22`, `ENOTSUP = 95`, `ENOPROTOOPT = 92`,
  `ENOMEM = 12`).
* Filesystem reads, `fi_setopt`/`fi_getopt` results and other external
  outcomes are inputs of the embedded functions.
* Static mutable state (the identity cache, the capability cache, the
  negotiation flags) is threaded explicitly as state values.
-/

/-- Model of the C locale `isspace` predicate used by `strtol`:
space, tab, newline, vertical tab, form feed, carriage return. -/
def isSpaceC (c : Char) : Bool :=
  c = ' ' || c = '\t' || c = '\n' || c = Char.ofNat 11 || c = Char.ofNat 12 || c = '\r'

/-- Numeric value of a list of decimal digit characters, most significant first. -/
def digitsVal (ds : List Char) : Nat :=
  ds.foldl (fun a c => a * 10 + (c.toNat - 48)) 0

/-- Model of `strtol(nptr, &endptr, 10)` on a character list: skip C
whitespace, read an optional sign, then decimal digits.  Returns the
parsed value and the offset of `endptr` from `nptr`; when no digits are
found the value is 0 and the offset is 0 (C resets `endptr` to `nptr`). -/
def strtol10 (cs : List Char) : Int × Nat :=
  let ws := cs.takeWhile isSpaceC
  let rest := cs.drop ws.length
  let sign : Int × Nat :=
    if rest.head? = some '-' then (-1, 1)
    else if rest.head? = some '+' then (1, 1)
    else (1, 0)
  let ds := (rest.drop sign.2).takeWhile Char.isDigit
  if ds.length = 0 then (0, 0)
  else (sign.1 * (digitsVal ds : Int), ws.length + sign.2 + ds.length)

/-- A discovered network interface descriptor (one element of the
`fi_info` list handed to `platform_sort_rails`).  The `tag` stands for
the opaque handle identity; `guid` is the string obtained by `fgets`
from the node_guid sysfs file of the device, with `none` modelling an
open or read failure of that file. -/
structure RailInfo where
  tag : Nat
  guid : Option String
deriving DecidableEq, Repr

/-- Embedding of `get_rail_vf_idx` (platform-aws.c lines 749-797):
return -EIO when the node_guid file cannot be opened or read; return
-EINVAL when the string length is not 19, when character 14 is not a
colon, or when `strtol(guid + 17, &endptr, 10)` does not consume through
the end of the string; otherwise return the strtol value. -/
def get_rail_vf_idx (r : RailInfo) : Int :=
  match r.guid with
  | none => -5
  | some g =>
      let cs := g.data
      if cs.length ≠ 19 then -22
      else if cs.getD 14 ' ' ≠ ':' then -22
      else
        let p := strtol10 (cs.drop 17)
        if p.2 ≠ 2 then -22
        else p.1

/-- Result of the scan loop of `platform_sort_rails`: the filled scratch
array, the error exit, or an out-of-bounds access to the scratch array
(undefined behavior in the C program). -/
inductive LoopRes where
  | done (a : List (Option RailInfo))
  | err
  | oob
deriving DecidableEq, Repr

/-- The scan loop of `platform_sort_rails` (lines 814-838): one
iteration per rail; `a` is the `sorted_info_array` scratch array,
`m0`/`m1` the two `rail_map` counters, `fuel` the remaining iteration
count.  Exhausting the input list, an out-of-range vf index or an
already-occupied target slot take the error exit; an access beyond the
scratch array (which the C program performs unchecked) is `oob`. -/
def sortLoop : List RailInfo → List (Option RailInfo) → Nat → Nat → Nat → LoopRes
  | _, a, _, _, 0 => .done a
  | [], _, _, _, _ + 1 => .err
  | d :: rest, a, m0, m1, fuel + 1 =>
      let vf := get_rail_vf_idx d
      if vf < 0 ∨ 2 ≤ vf then .err
      else
        let ridx : Nat := if vf = 0 then m0 else m1
        if a.length ≤ ridx then .oob
        else if (a.getD ridx none).isSome then .err
        else sortLoop rest (a.set ridx (some d))
               (if vf = 0 then m0 + 1 else m0)
               (if vf = 0 then m1 else m1 + 1) fuel

/-- Turn the scratch array into the relinked output list; `none` when
some slot was never filled (the relink loop of the C program would then
dereference or assert on a NULL entry). -/
def seqSlots : List (Option RailInfo) → Option (List RailInfo)
  | [] => some []
  | none :: _ => none
  | some d :: t => (seqSlots t).map (fun l => d :: l)

/-- Overall outcome of one `platform_sort_rails` execution. -/
inductive SortResult where
  | ok (out : List RailInfo)
  | err
  | unspecified
deriving DecidableEq, Repr

/-- Embedding of the body of `platform_sort_rails` (lines 799-856):
`num_rails <= 0` returns with the list unchanged; otherwise the scan
loop runs `num_rails` times over a NULL-initialised scratch array with
`rail_map = (0, 2)`; on the error exit the caller list is untouched; on
success the relink loop rebuilds the list in scratch-array order.
Executions whose C behavior is undefined (scratch access out of bounds,
or a NULL hole hit by the relink loop and its assertions) are `unspecified`. -/
def sortRailsCore (l : List RailInfo) (num_rails : Int) : SortResult :=
  if num_rails ≤ 0 then .ok l
  else
    let n := num_rails.toNat
    match sortLoop l (List.replicate n none) 0 2 n with
    | .err => .err
    | .oob => .unspecified
    | .done a =>
        match seqSlots a with
        | some out => .ok out
        | none => .unspecified

/-- Caller-visible effect of `platform_sort_rails`: the final value of
`*info_list`.  On the error exit the head pointer and all next links
were never written, so the caller sees the original list; `none` marks
the undefined-behavior executions. -/
def platform_sort_rails (l : List RailInfo) (num_rails : Int) : Option (List RailInfo) :=
  match sortRailsCore l num_rails with
  | .ok out => some out
  | .err => some l
  | .unspecified => none

/-- The C return value of `platform_sort_rails`, which is declared
`void`: every call returns the same (empty) value, so no error code can
reach the caller through the return channel. -/
def platform_sort_rails_ret (_ : List RailInfo) (_ : Int) : Unit := ()

/-- Outcome of the filesystem access performed by the first call of
`get_platform_type`: the product_name file failed to open, a stream
error occurred while reading it, or its full byte content was readable. -/
inductive FsOutcome where
  | openFail
  | readFail
  | ok (content : List Char)
deriving DecidableEq, Repr

/-- The read loop of `get_platform_type` (lines 146-151): characters are
appended until a newline; at end of file the `fgetc` return value EOF,
truncated to a `char`, is the byte 0xFF and is appended before the
`feof` guard stops the loop. -/
def readFirstLine : List Char → List Char
  | [] => [Char.ofNat 255]
  | c :: rest => if c = '\n' then [] else c :: readFirstLine rest

/-- Embedding of `get_platform_type` (lines 113-177) as a step on the
cached state: `none` is the uninitialised cache, `some v` the cache
holding result `v` (`v = none` models the remembered NULL of a failed
first call).  Returns the call result and the new cache. -/
def get_platform_type (cache : Option (Option String)) (fs : FsOutcome) :
    Option String × Option (Option String) :=
  match cache with
  | some v => (v, some v)
  | none =>
      let v : Option String :=
        match fs with
        | .openFail => none
        | .readFail => none
        | .ok content => some (String.mk (readFirstLine content))
      (v, some v)

/-- One entry of the `ec2_platform_data` catalog (lines 29-38).  Fields
omitted by a C designated initialiser are zero-initialised.  The latency
floats of the table are exact small decimals, modelled as rationals. -/
structure ec2_platform_data where
  name : String
  topology : Option String
  default_dup_conns : Int
  latency : ℚ
  gdr_required : Bool
  net_flush_required : Bool
  default_protocol : String
  domain_per_thread : Int
deriving DecidableEq, Repr

/-- The static `platform_data_map` catalog (lines 38-101). -/
def platform_data_map : List ec2_platform_data :=
  [ ⟨"p4d.24xlarge", some "p4d-24xl-topo.xml", 0, 75, true, true, "SENDRECV", 0⟩,
    ⟨"p4de.24xlarge", some "p4de-24xl-topo.xml", 0, 75, true, true, "SENDRECV", 0⟩,
    ⟨"p3dn.24xlarge", none, 4, 150, false, true, "SENDRECV", 0⟩,
    ⟨"p5.48xlarge", some "p5.48xl-topo.xml", 0, 75, true, false, "RDMA", 0⟩,
    ⟨"g5.48xlarge", some "g5.48xl-topo.xml", 0, 0, false, true, "SENDRECV", 0⟩,
    ⟨"trn1.32xlarge", none, 0, 0, true, true, "SENDRECV", 1⟩,
    ⟨"trn1n.32xlarge", none, 0, 0, true, true, "SENDRECV", 1⟩ ]

/-- The scan loop of `get_platform_data` (lines 209-212): the whole
table is traversed and every match overwrites the result, so the last
matching entry wins. -/
def scanPlatformMap (t : String) : Option ec2_platform_data :=
  platform_data_map.foldl (fun acc r => if r.name = t then some r else acc) none

/-- Pure value computed by the first `get_platform_data` call from the
platform type string: NULL when the type is unknown (NULL), otherwise
the result of the full table scan. -/
def lookupPlatformData : Option String → Option ec2_platform_data
  | none => none
  | some t => scanPlatformMap t

/-- Embedding of `get_platform_data` (lines 187-217) as a step on its
cached state, in the same style as `get_platform_type`: the first call
computes from the platform type, later calls return the cache. -/
def get_platform_data (cache : Option (Option ec2_platform_data))
    (platform_type : Option String) :
    Option ec2_platform_data × Option (Option ec2_platform_data) :=
  match cache with
  | some v => (v, some v)
  | none =>
      let v := lookupPlatformData platform_type
      (v, some v)

/-- Case-insensitive string comparison, the model of `strcasecmp` for
the ASCII strings compared by this module. -/
def strCaseEq (a b : String) : Bool :=
  a.data.map Char.toLower == b.data.map Char.toLower

/-- Embedding of `validate_rdma_write` (lines 223-255), in the build
where `FI_OPT_EFA_EMULATED_WRITE` is declared.  Inputs are the
`fi_getopt` return code, whether the returned option length matched,
and the returned `optval` (whether writes are emulated). -/
def validate_rdma_write (getopt_ret : Int) (optlen_ok : Bool) (emulated : Bool) : Int :=
  if getopt_ret ≠ 0 then getopt_ret
  else if ¬optlen_ok then -22
  else if emulated then -22
  else 0

/-- Embedding of `configure_ep_inorder` (lines 286-313) in the build
where the in-order option is declared: input is the `fi_setopt` return
code; the result is the function return code paired with the
`have_ordering` output (`-FI_EOPNOTSUPP = -95` and
`-FI_ENOPROTOOPT = -92` mean unsupported; any other nonzero code is an
unexpected failure). -/
def configure_ep_inorder (setopt_ret : Int) : Int × Bool :=
  if setopt_ret = -95 ∨ setopt_ret = -92 then (0, false)
  else if setopt_ret ≠ 0 then (setopt_ret, false)
  else (0, true)

/-- Embedding of `configure_ep_max_msg_size` (lines 322-344): input is
the `fi_setopt(FI_OPT_MAX_MSG_SIZE)` return code; unsupported is folded
to success. -/
def configure_ep_max_msg_size (setopt_ret : Int) : Int :=
  if setopt_ret = -95 ∨ setopt_ret = -92 then 0 else setopt_ret

/-- Shared mutable state read and written by `platform_config_endpoint`:
the `NCCL_PROTO` environment binding and the two static negotiation
flags `nccl_proto_configured` and `need_ordering` (lines 635-636). -/
structure NegState where
  envProto : Option String
  configured : Bool
  need_ordering : Bool
deriving DecidableEq, Repr

/-- Embedding of `configure_nccl_proto` (lines 259-276): when
`NCCL_PROTO` is unset, `setenv` it to "simple" (the `setenv_ok` input
models an allocation failure of `setenv`); when it is set to something
other than "simple" only a warning is logged.  Returns the function
return code and the updated environment binding. -/
def configure_nccl_proto (setenv_ok : Bool) (envProto : Option String) :
    Int × Option String :=
  match envProto with
  | none => if setenv_ok then (0, some "simple") else (-1, envProto)
  | some _ => (0, envProto)

/-- External inputs of one `platform_config_endpoint` call: the
arguments, the values returned by the parameter getters, the cached
platform type, and the return codes of the transport-library calls the
function would make.  The three build flags mirror the
`HAVE_DECL_FI_OPT_*` preprocessor conditions of the CUDA build. -/
structure EpCallInputs where
  endpoint_null : Bool
  prov_name : String
  disable_gdr_check : Int
  gdr_supported : Bool
  platform_type : Option String
  protocol : String
  disable_native_rdma_check : Int
  rdma_getopt_ret : Int
  rdma_optlen_ok : Bool
  rdma_emulated : Bool
  have_sendrecv_opt : Bool
  have_write_opt : Bool
  inorder_setopt_ret : Int
  setenv_proto_ok : Bool
  max_msg_setopt_ret : Int
deriving DecidableEq, Repr

/-- Whether an in-order capability option is selected for the protocol
of the call (lines 648-657): the C code leaves `optname = -1` when the
build lacks the `HAVE_DECL_FI_OPT_EFA_*_IN_ORDER_ALIGNED_128_BYTES`
declaration for the selected protocol. -/
def inorderOptAvail (inp : EpCallInputs) : Bool :=
  if strCaseEq "SENDRECV" inp.protocol then inp.have_sendrecv_opt
  else inp.have_write_opt

/-- Result of one `platform_config_endpoint` call: the return code, the
shared state after the call, and whether the in-order capability was
attempted on the endpoint (whether `fi_setopt` of the in-order option
was invoked). -/
structure EpCallResult where
  ret : Int
  state : NegState
  attempted_inorder : Bool
deriving DecidableEq, Repr

/-- The final step of `platform_config_endpoint` after the ordering
negotiation (lines 733-739): for the RDMA protocol, cap the maximum
message size, treating unsupported as success. -/
def config_ep_finish (inp : EpCallInputs) (s2 : NegState) (att : Bool) : EpCallResult :=
  if strCaseEq "RDMA" inp.protocol then
    ⟨configure_ep_max_msg_size inp.max_msg_setopt_ret, s2, att⟩
  else ⟨0, s2, att⟩

/-- The HAVE_CUDA section of `platform_config_endpoint` (lines 634-743):
in-order option selection by protocol, the P5 + RDMA special case, the
ordering-negotiation block guarded by the negotiation statics, and the
RDMA max-message-size step. -/
def config_ep_negotiate (inp : EpCallInputs) (s : NegState) : EpCallResult :=
  if ¬(strCaseEq "SENDRECV" inp.protocol ∨ strCaseEq "RDMA" inp.protocol) then
    ⟨-22, s, false⟩
  else
    let optAvail : Bool := inorderOptAvail inp
    let s1 : NegState :=
      if s.envProto = none ∧ strCaseEq "RDMA" inp.protocol ∧
          inp.platform_type = some "p5.48xlarge" ∧ ¬s.configured then
        { s with configured := true, need_ordering := false }
      else s
    if s1.need_ordering ∨ ¬s1.configured then
      let pr : Int × Bool :=
        if optAvail then configure_ep_inorder inp.inorder_setopt_ret else (0, false)
      if pr.1 ≠ 0 then ⟨pr.1, s1, optAvail⟩
      else if s1.need_ordering ∧ ¬pr.2 then ⟨-95, s1, optAvail⟩
      else if ¬s1.configured then
        let s2 : NegState := { s1 with configured := true, need_ordering := pr.2 }
        if ¬pr.2 then
          let pe := configure_nccl_proto inp.setenv_proto_ok s2.envProto
          let s3 : NegState := { s2 with envProto := pe.2 }
          if pe.1 ≠ 0 then ⟨-95, s3, optAvail⟩
          else config_ep_finish inp s3 optAvail
        else config_ep_finish inp s2 optAvail
      else config_ep_finish inp s1 optAvail
    else config_ep_finish inp s1 false

/-- Embedding of `platform_config_endpoint` (lines 595-747) for the
CUDA build, with the negotiation statics threaded through `NegState`.
Mirrors the C control flow: NULL endpoint check, non-EFA short circuit,
GDR requirement check, native-RDMA-write validation, then the
negotiation section `config_ep_negotiate`. -/
def platform_config_endpoint (inp : EpCallInputs) (s : NegState) : EpCallResult :=
  if inp.endpoint_null then ⟨-22, s, false⟩
  else if inp.prov_name ≠ "efa" then ⟨0, s, false⟩
  else if inp.disable_gdr_check = 0 ∧
      (match lookupPlatformData inp.platform_type with
       | some pd => pd.gdr_required && !inp.gdr_supported
       | none => false) = true then ⟨-22, s, false⟩
  else if strCaseEq "RDMA" inp.protocol ∧ inp.disable_native_rdma_check = 0 ∧
      validate_rdma_write inp.rdma_getopt_ret inp.rdma_optlen_ok inp.rdma_emulated ≠ 0 then
    ⟨validate_rdma_write inp.rdma_getopt_ret inp.rdma_optlen_ok inp.rdma_emulated, s, false⟩
  else config_ep_negotiate inp s

/-- The POSIX PATH_MAX bound used by the topology path buffer. -/
def PATH_MAX : Nat := 4096

/-- Model of `setenv(name, v, overwrite)` on an environment map: the
binding is written when `overwrite` is nonzero or the name is unbound,
and left alone otherwise. -/
def setenvF (e : String → Option String) (name v : String) (overwrite : Bool) :
    String → Option String :=
  if overwrite || (e name).isNone then (fun s => if s = name then some v else e s) else e

/-- Embedding of `configure_nvls_option` (lines 349-391): when
`NCCL_NVLS_ENABLE` is unset, look up the `ncclGetVersion` symbol
(`sym = none` means the symbol is absent, which skips the check;
`some none` means the call failed, returning -ENOTSUP; `some (some v)`
is the reported version) and force `NCCL_NVLS_ENABLE=0` for versions
before 2.18.5. -/
def configure_nvls_option (e : String → Option String) (sym : Option (Option Int)) :
    Int × (String → Option String) :=
  match e "NCCL_NVLS_ENABLE" with
  | some _ => (0, e)
  | none =>
      match sym with
      | none => (0, e)
      | some none => (-95, e)
      | some (some v) =>
          if v < 21805 then (0, setenvF e "NCCL_NVLS_ENABLE" "0" true)
          else (0, e)

/-- The process configuration state read and written by `platform_init`:
the environment, the caller-owned provider filter, and the plugin
globals `nic_dup_conns`, `net_latency`, `nccl_ofi_selected_protocol`,
`domain_per_thread`. -/
structure InitState where
  env : String → Option String
  provider_filter : Option String
  nic_dup_conns : Int
  net_latency : ℚ
  selected_protocol : Option String
  domain_per_thread : Int

/-- External inputs read by one `platform_init` run: the cached platform
type, the libfabric version, the `ncclGetVersion` symbol outcome, the
user parameter getters `ofi_nccl_net_latency`, `ofi_nccl_protocol` and
`ofi_nccl_domain_per_thread`, and the compile-time topology directory
`XML_DIR`. -/
structure InitParams where
  platform_type : Option String
  fi_major : Nat
  fi_minor : Nat
  nvls_sym : Option (Option Int)
  ofi_net_latency : ℚ
  ofi_protocol : Option String
  ofi_domain_per_thread : Int
  xml_dir : String

/-- The provider-filter step of `platform_init` (lines 420-427): when
`FI_PROVIDER` is unset, point the caller-owned filter at "efa" and
select EFA; otherwise leave the filter alone and select EFA only when
the user chose it.  Returns the new state and `select_efa`. -/
def init_provider (st : InitState) : InitState × Bool :=
  match st.env "FI_PROVIDER" with
  | none => ({ st with provider_filter := some "efa" }, true)
  | some v => (st, v = "efa")

/-- The fork-safety step (lines 457-470): choose the variable name from
the libfabric version and set it to "1" only when unset. -/
def init_forksafe (p : InitParams) (st : InitState) : InitState :=
  let forkVar : String :=
    if p.fi_major > 1 ∨ (p.fi_major = 1 ∧ p.fi_minor ≥ 13)
    then "FI_EFA_FORK_SAFE" else "RDMAV_FORK_SAFE"
  if (st.env forkVar).isNone
  then { st with env := setenvF st.env forkVar "1" true } else st

/-- The NVLS step (line 472): run `configure_nvls_option` over the
environment, keeping its return code. -/
def init_nvls (p : InitParams) (st : InitState) : Int × InitState :=
  let nv := configure_nvls_option st.env p.nvls_sym
  (nv.1, { st with env := nv.2 })

/-- The force-flush step (lines 478-497): platforms that do not require
a network flush get `NCCL_NET_FORCE_FLUSH=0` as a default only. -/
def init_flush (pd : Option ec2_platform_data) (st : InitState) : InitState :=
  if (match pd with
      | some r => !r.net_flush_required
      | none => false) && (st.env "NCCL_NET_FORCE_FLUSH").isNone then
    { st with env := setenvF st.env "NCCL_NET_FORCE_FLUSH" "0" false }
  else st

/-- The chunk-size step (lines 513-527): both NVLS chunk-size tunables
are set to 512KiB with `setenv` overwrite 0, i.e. as defaults only. -/
def init_chunks (st : InitState) : InitState :=
  let st := { st with env := setenvF st.env "NCCL_NVLSTREE_MAX_CHUNKSIZE" "524288" false }
  { st with env := setenvF st.env "NCCL_NVLS_CHUNKSIZE" "524288" false }

/-- The topology step (lines 534-561): when `NCCL_TOPO_FILE` is unset
and the platform record names a topology file, build its path (failing
with -ENOMEM when it would not fit in PATH_MAX) and export it. -/
def init_topo (p : InitParams) (pd : Option ec2_platform_data) (st : InitState) :
    Int × InitState :=
  match st.env "NCCL_TOPO_FILE" with
  | some _ => (0, st)
  | none =>
      match pd with
      | some r =>
          match r.topology with
          | some t =>
              if (p.xml_dir ++ "/" ++ t).length ≥ PATH_MAX then (-12, st)
              else (0, { st with
                env := setenvF st.env "NCCL_TOPO_FILE" (p.xml_dir ++ "/" ++ t) true })
          | none => (0, st)
      | none => (0, st)

/-- The tunable-resolution steps (lines 563-589): duplicate-connection
count, latency, protocol and domain-per-thread, each taken from the
platform record only at its unset sentinel (0, negative, NULL, -1). -/
def init_tunables (p : InitParams) (pd : Option ec2_platform_data) (select_efa : Bool)
    (st : InitState) : InitState :=
  let st :=
    match pd with
    | some r =>
        if st.nic_dup_conns = 0 then { st with nic_dup_conns := r.default_dup_conns }
        else st
    | none => st
  let st :=
    if p.ofi_net_latency < 0 then
      { st with net_latency :=
          match pd with
          | some r => if r.latency ≥ 0 then r.latency else 150
          | none => 150 }
    else st
  let st :=
    match pd with
    | some r =>
        if select_efa ∧ p.ofi_protocol = none then
          { st with selected_protocol := some r.default_protocol }
        else st
    | none => st
  { st with domain_per_thread :=
      if p.ofi_domain_per_thread = -1 then
        match pd with
        | some r => r.domain_per_thread
        | none => 0
      else p.ofi_domain_per_thread }

/-- Embedding of `platform_init` (lines 403-593) for the CUDA build,
with `setenv` itself modelled as infallible (its out-of-memory failure
path is not modelled).  Returns the function return code and the final
configuration state, mirroring the C step order: provider filter,
fork-safety variable, NVLS option (whose failure aborts), force-flush
default, the two chunk-size defaults, topology file (whose path
overflow aborts), then duplicate connections, latency, protocol, and
domain-per-thread. -/
def platform_init (p : InitParams) (st : InitState) : Int × InitState :=
  let pd := lookupPlatformData p.platform_type
  let pr := init_provider st
  let st1 := init_forksafe p pr.1
  let nv := init_nvls p st1
  if nv.1 ≠ 0 then (nv.1, nv.2)
  else
    let st2 := init_flush pd nv.2
    let st3 := init_chunks st2
    let tp := init_topo p pd st3
    if tp.1 ≠ 0 then (tp.1, tp.2)
    else (0, init_tunables p pd pr.2 tp.2)

/-- The guards that a `platform_config_endpoint` call passes before the
ordering-negotiation section: non-NULL endpoint, EFA provider, GDR
requirement satisfied, native-RDMA-write validation passed (or not
applicable), and a recognised protocol.  Mirrors the early-exit
conditions of lines 598-662. -/
def reachesNegotiation (inp : EpCallInputs) : Prop :=
  inp.endpoint_null = false ∧
  inp.prov_name = "efa" ∧
  ¬(inp.disable_gdr_check = 0 ∧
      (match lookupPlatformData inp.platform_type with
       | some pd => pd.gdr_required && !inp.gdr_supported
       | none => false) = true) ∧
  ¬(strCaseEq "RDMA" inp.protocol ∧ inp.disable_native_rdma_check = 0 ∧
      validate_rdma_write inp.rdma_getopt_ret inp.rdma_optlen_ok inp.rdma_emulated ≠ 0) ∧
  (strCaseEq "SENDRECV" inp.protocol = true ∨ strCaseEq "RDMA" inp.protocol = true)

instance (inp : EpCallInputs) : Decidable (reachesNegotiation inp) := by
  unfold reachesNegotiation; exact inferInstance

/-- Two strings cannot be case-insensitively equal to both "RDMA" and
"SENDRECV". -/
lemma strCaseEq_rdma_not_sendrecv {p : String} (h : strCaseEq "RDMA" p = true) :
    strCaseEq "SENDRECV" p = false := by
  simp only [strCaseEq, beq_iff_eq, beq_eq_false_iff_ne, ne_eq] at h ⊢
  rw [← h]
  decide

/-- The final max-message-size step keeps the state and reports the
attempt flag it was given. -/
lemma config_ep_finish_parts (inp : EpCallInputs) (s2 : NegState) (att : Bool) :
    (config_ep_finish inp s2 att).state = s2 ∧
    (config_ep_finish inp s2 att).attempted_inorder = att := by
  unfold config_ep_finish
  split_ifs <;> exact ⟨rfl, rfl⟩

/-- Once the domain is configured, the negotiation section never writes
the shared state again, on any path. -/
lemma negotiate_state_const (inp : EpCallInputs) (s : NegState)
    (hc : s.configured = true) : (config_ep_negotiate inp s).state = s := by
  unfold config_ep_negotiate config_ep_finish
  simp only [hc, not_true_eq_false, and_false, if_false, eq_self_iff_true, not_false_eq_true,
    or_false]
  split_ifs <;> rfl

/-- Once the domain is configured, `platform_config_endpoint` never
writes the shared state again, on any path. -/
lemma config_endpoint_state_const (inp : EpCallInputs) (s : NegState)
    (hc : s.configured = true) : (platform_config_endpoint inp s).state = s := by
  unfold platform_config_endpoint
  split_ifs <;> first | rfl | exact negotiate_state_const inp s hc

/-- When all early guards pass, `platform_config_endpoint` is the
negotiation section. -/
lemma config_endpoint_reach (inp : EpCallInputs) (s : NegState)
    (h : reachesNegotiation inp) :
    platform_config_endpoint inp s = config_ep_negotiate inp s := by
  obtain ⟨h1, h2, h3, h4, _⟩ := h
  unfold platform_config_endpoint
  rw [if_neg (by simp [h1]), if_neg (by simp [h2]), if_neg h3, if_neg h4]

/-- When some early guard fires, the call leaves the state alone, makes
no in-order attempt, and its outcome does not depend on the in-order
capability result. -/
lemma config_endpoint_indep_guards (inp : EpCallInputs) (s : NegState)
    (h : ¬reachesNegotiation inp) :
    (platform_config_endpoint inp s).state = s ∧
    (platform_config_endpoint inp s).attempted_inorder = false ∧
    ∀ r, platform_config_endpoint { inp with inorder_setopt_ret := r } s =
      platform_config_endpoint inp s := by
  unfold platform_config_endpoint
  by_cases h1 : inp.endpoint_null = true
  · simp [h1]
  · by_cases h2 : inp.prov_name = "efa"
    · by_cases h3 : (inp.disable_gdr_check = 0 ∧
          (match lookupPlatformData inp.platform_type with
           | some pd => pd.gdr_required && !inp.gdr_supported
           | none => false) = true)
      · simp [h1, h2, h3]
      · by_cases h4 : (strCaseEq "RDMA" inp.protocol ∧ inp.disable_native_rdma_check = 0 ∧
            validate_rdma_write inp.rdma_getopt_ret inp.rdma_optlen_ok inp.rdma_emulated ≠ 0)
        · simp [h1, h2, h3, h4]
        · have h5 : ¬(strCaseEq "SENDRECV" inp.protocol = true ∨
              strCaseEq "RDMA" inp.protocol = true) := by
            intro hk
            exact h ⟨by simpa using h1, h2, h3, h4, hk⟩
          unfold config_ep_negotiate
          simp [h1, h2, h3, h4, h5]
    · simp [h1, h2]

/-- On an ordered-configured domain with an available in-order option,
the negotiation section re-attempts the capability: unsupported yields
-ENOTSUP, an unexpected failure propagates, success proceeds to the
final step; state is untouched in all cases. -/
lemma negotiate_ordered_cases (inp : EpCallInputs) (s : NegState)
    (hkn : strCaseEq "SENDRECV" inp.protocol = true ∨ strCaseEq "RDMA" inp.protocol = true)
    (hc : s.configured = true) (hn : s.need_ordering = true)
    (hav : inorderOptAvail inp = true) :
    ((inp.inorder_setopt_ret = -95 ∨ inp.inorder_setopt_ret = -92) →
        config_ep_negotiate inp s = ⟨-95, s, true⟩) ∧
    ((inp.inorder_setopt_ret ≠ 0 ∧ inp.inorder_setopt_ret ≠ -95 ∧ inp.inorder_setopt_ret ≠ -92) →
        config_ep_negotiate inp s = ⟨inp.inorder_setopt_ret, s, true⟩) ∧
    (inp.inorder_setopt_ret = 0 →
        config_ep_negotiate inp s = config_ep_finish inp s true) := by
  have hkn2 : (strCaseEq "SENDRECV" inp.protocol = true ∨ strCaseEq "RDMA" inp.protocol = true) :=
    hkn
  unfold config_ep_negotiate
  simp only [hc, hn, not_true_eq_false, and_false, if_false, true_or, if_true, hav,
    configure_ep_inorder]
  refine ⟨?_, ?_, ?_⟩
  · intro hsup
    simp [hsup, hkn2]
  · rintro ⟨hne, h95, h92⟩
    have hno : ¬(inp.inorder_setopt_ret = -95 ∨ inp.inorder_setopt_ret = -92) := by
      rintro (h | h) <;> [exact h95 h; exact h92 h]
    simp [hno, hne, hkn2]
  · intro hz
    simp [hz, hkn2]

/-- On a first call in the initial negotiation state that observes the
in-order capability as unsupported, the negotiation section records
configured and not-ordering. -/
lemma negotiate_first_unsupported (inp : EpCallInputs) (s : NegState)
    (hkn : strCaseEq "SENDRECV" inp.protocol = true ∨ strCaseEq "RDMA" inp.protocol = true)
    (hc : s.configured = false) (hn : s.need_ordering = false)
    (hav : inorderOptAvail inp = true)
    (hsup : inp.inorder_setopt_ret = -95 ∨ inp.inorder_setopt_ret = -92) :
    (config_ep_negotiate inp s).state.configured = true ∧
    (config_ep_negotiate inp s).state.need_ordering = false := by
  unfold config_ep_negotiate config_ep_finish configure_nccl_proto configure_ep_inorder
  rcases hsup with h | h <;> rcases hkn with hk | hk <;>
    simp [h, hk, hc, hn, hav] <;> split_ifs <;> simp_all

/-- On an unordered-configured domain the negotiation section skips the
ordering block, leaving the state untouched, attempting nothing, and
ignoring the in-order capability input. -/
lemma negotiate_unordered_skip (inp : EpCallInputs) (s : NegState)
    (hc : s.configured = true) (hn : s.need_ordering = false) :
    (config_ep_negotiate inp s).state = s ∧
    (config_ep_negotiate inp s).attempted_inorder = false ∧
    ∀ r, config_ep_negotiate { inp with inorder_setopt_ret := r } s =
      config_ep_negotiate inp s := by
  unfold config_ep_negotiate config_ep_finish
  simp [hc, hn]
  constructor <;> split_ifs <;> rfl

/-- A concrete endpoint-configuration input that passes every early
guard: EFA provider, GDR checks disabled, RDMA protocol on a P5
platform, both in-order option declarations available. -/
def sampleEp : EpCallInputs :=
  ⟨false, "efa", 1, true, some "p5.48xlarge", "RDMA", 1, 0, true, false, true, true, 0, true, 0⟩

/-- C3: once a transport domain is in the ordered-configured state,
every subsequent `platform_config_endpoint` call re-attempts the
in-order capability; observing it unsupported returns -ENOTSUP and an
unexpected failure propagates its error code; the negotiation state,
including the recorded required-ordering flag, is never changed after
the domain is configured. -/
theorem C3_ordered_domain_immutable (inp : EpCallInputs) (s : NegState)
    (hreach : reachesNegotiation inp) (hc : s.configured = true)
    (hn : s.need_ordering = true) (hav : inorderOptAvail inp = true) :
    (platform_config_endpoint inp s).attempted_inorder = true ∧
    (platform_config_endpoint inp s).state = s ∧
    ((inp.inorder_setopt_ret = -95 ∨ inp.inorder_setopt_ret = -92) →
       (platform_config_endpoint inp s).ret = -95) ∧
    ((inp.inorder_setopt_ret ≠ 0 ∧ inp.inorder_setopt_ret ≠ -95 ∧ inp.inorder_setopt_ret ≠ -92) →
       (platform_config_endpoint inp s).ret = inp.inorder_setopt_ret) ∧
    (∀ inp2 s2, s2.configured = true → (platform_config_endpoint inp2 s2).state = s2) := by
  have hkn := hreach.2.2.2.2
  rw [config_endpoint_reach inp s hreach]
  obtain ⟨cu, cf, cok⟩ := negotiate_ordered_cases inp s hkn hc hn hav
  refine ⟨?_, negotiate_state_const inp s hc, ?_, ?_, ?_⟩
  · by_cases hz : inp.inorder_setopt_ret = 0
    · rw [cok hz]; exact (config_ep_finish_parts inp s true).2
    · by_cases hsup : inp.inorder_setopt_ret = -95 ∨ inp.inorder_setopt_ret = -92
      · rw [cu hsup]
      · rw [cf ⟨hz, fun h => hsup (Or.inl h), fun h => hsup (Or.inr h)⟩]
  · intro hsup; rw [cu hsup]
  · intro hf; rw [cf hf]
  · intro inp2 s2 hc2; exact config_endpoint_state_const inp2 s2 hc2

/-- Witness for C3 at a concrete ordered domain observing unsupported. -/
theorem C3_ordered_domain_immutable_witness :
    (platform_config_endpoint { sampleEp with inorder_setopt_ret := -95 }
        ⟨none, true, true⟩).attempted_inorder = true ∧
    (platform_config_endpoint { sampleEp with inorder_setopt_ret := -95 }
        ⟨none, true, true⟩).state = ⟨none, true, true⟩ ∧
    (platform_config_endpoint { sampleEp with inorder_setopt_ret := -95 }
        ⟨none, true, true⟩).ret = -95 := by
  obtain ⟨a, b, c, _, _⟩ :=
    C3_ordered_domain_immutable { sampleEp with inorder_setopt_ret := -95 }
      ⟨none, true, true⟩ (by decide) rfl rfl (by decide)
  exact ⟨a, b, c (by decide)⟩

/-- C5: if the very first endpoint-configuration call on a domain
observes the in-order capability as unsupported, the domain becomes
configured with required-ordering false; afterwards every call leaves
the state untouched, never attempts the capability, and its outcome is
independent of whatever in-order capability result a later endpoint
would report. -/
theorem C5_unordered_first_call_stable (inp : EpCallInputs) (s : NegState) :
    (reachesNegotiation inp → s.configured = false → s.need_ordering = false →
       inorderOptAvail inp = true →
       (inp.inorder_setopt_ret = -95 ∨ inp.inorder_setopt_ret = -92) →
       ((platform_config_endpoint inp s).state.configured = true ∧
        (platform_config_endpoint inp s).state.need_ordering = false)) ∧
    (s.configured = true → s.need_ordering = false →
       ((platform_config_endpoint inp s).state = s ∧
        (platform_config_endpoint inp s).attempted_inorder = false ∧
        ∀ r, platform_config_endpoint { inp with inorder_setopt_ret := r } s =
          platform_config_endpoint inp s)) := by
  constructor
  · intro hreach hc hn hav hsup
    rw [config_endpoint_reach inp s hreach]
    exact negotiate_first_unsupported inp s hreach.2.2.2.2 hc hn hav hsup
  · intro hc hn
    by_cases hreach : reachesNegotiation inp
    · obtain ⟨q1, q2, q3⟩ := negotiate_unordered_skip inp s hc hn
      refine ⟨?_, ?_, ?_⟩
      · rw [config_endpoint_reach inp s hreach]; exact q1
      · rw [config_endpoint_reach inp s hreach]; exact q2
      · intro r
        have hrr : reachesNegotiation { inp with inorder_setopt_ret := r } := by
          obtain ⟨a, b, c, d, e⟩ := hreach; exact ⟨a, b, c, d, e⟩
        rw [config_endpoint_reach _ s hrr, config_endpoint_reach inp s hreach]
        exact q3 r
    · exact config_endpoint_indep_guards inp s hreach

/-- Witness for C5: a first call observing unsupported on SENDRECV, and
a later call on the resulting unordered domain whose outcome ignores a
changed capability result. -/
theorem C5_unordered_first_call_stable_witness :
    ((platform_config_endpoint
        { sampleEp with protocol := "SENDRECV", inorder_setopt_ret := -95 }
        ⟨none, false, false⟩).state.configured = true ∧
     (platform_config_endpoint
        { sampleEp with protocol := "SENDRECV", inorder_setopt_ret := -95 }
        ⟨none, false, false⟩).state.need_ordering = false) ∧
    platform_config_endpoint
        { sampleEp with protocol := "SENDRECV", inorder_setopt_ret := 7 }
        ⟨some "simple", true, false⟩ =
      platform_config_endpoint
        { sampleEp with protocol := "SENDRECV", inorder_setopt_ret := -95 }
        ⟨some "simple", true, false⟩ := by
  refine ⟨(C5_unordered_first_call_stable
      { sampleEp with protocol := "SENDRECV", inorder_setopt_ret := -95 }
      ⟨none, false, false⟩).1 (by decide) rfl rfl (by decide) (by decide), ?_⟩
  exact ((C5_unordered_first_call_stable
      { sampleEp with protocol := "SENDRECV", inorder_setopt_ret := -95 }
      ⟨some "simple", true, false⟩).2 rfl rfl).2.2 7

/-- C9: on a first endpoint-configuration call with no NCCL_PROTO
environment override, the RDMA protocol and the p5.48xlarge platform,
the negotiator records configured and not-ordering without attempting
the in-order capability, and the call result does not mention the
in-order capability outcome at all. -/
theorem C9_p5_rdma_skips_ordering (inp : EpCallInputs) (s : NegState)
    (hreach : reachesNegotiation inp)
    (hproto : strCaseEq "RDMA" inp.protocol = true)
    (hplat : inp.platform_type = some "p5.48xlarge")
    (henv : s.envProto = none)
    (hconf : s.configured = false) :
    platform_config_endpoint inp s =
      ⟨configure_ep_max_msg_size inp.max_msg_setopt_ret, ⟨none, true, false⟩, false⟩ := by
  rw [config_endpoint_reach inp s hreach]
  unfold config_ep_negotiate config_ep_finish
  simp [hproto, hplat, henv, hconf, strCaseEq_rdma_not_sendrecv hproto]

/-- Witness for C9 at the concrete P5 + RDMA input (the capability
result field is set to a hard-failure code to exhibit that it is never
consulted). -/
theorem C9_p5_rdma_skips_ordering_witness :
    platform_config_endpoint { sampleEp with inorder_setopt_ret := -7 } ⟨none, false, false⟩ =
      ⟨configure_ep_max_msg_size
         ({ sampleEp with inorder_setopt_ret := -7 } : EpCallInputs).max_msg_setopt_ret,
       ⟨none, true, false⟩, false⟩ :=
  C9_p5_rdma_skips_ordering { sampleEp with inorder_setopt_ret := -7 } ⟨none, false, false⟩
    (by decide) (by decide) rfl rfl rfl

/-- C10: a call with a NULL endpoint handle returns -EINVAL with the
negotiation state untouched and no capability negotiation attempted;
the result is the same for every prior state, so the state is not even
consulted. -/
theorem C10_null_endpoint_einval (inp : EpCallInputs) (s : NegState)
    (h : inp.endpoint_null = true) :
    platform_config_endpoint inp s = ⟨-22, s, false⟩ := by
  simp [platform_config_endpoint, h]

/-- Witness for C10 at a concrete NULL-endpoint call. -/
theorem C10_null_endpoint_einval_witness :
    platform_config_endpoint { sampleEp with endpoint_null := true } ⟨none, true, true⟩ =
      ⟨-22, ⟨none, true, true⟩, false⟩ :=
  C10_null_endpoint_einval { sampleEp with endpoint_null := true } ⟨none, true, true⟩ rfl

/-- A linear scan that overwrites its accumulator on every match
computes the last matching entry (falling back to the initial
accumulator). -/
lemma foldl_scan_last (p : ec2_platform_data → Prop) [DecidablePred p] :
    ∀ (l : List ec2_platform_data) (acc : Option ec2_platform_data),
      l.foldl (fun a r => if p r then some r else a) acc =
        ((l.filter (fun r => decide (p r))).getLast?).or acc := by
  intro l
  induction l with
  | nil => intro acc; rfl
  | cons r t ih =>
      intro acc
      rw [List.foldl_cons, ih]
      by_cases hp : p r
      · rw [if_pos hp]
        have hfc : (r :: t).filter (fun x => decide (p x)) =
            r :: t.filter (fun x => decide (p x)) := by
          simp [List.filter_cons, hp]
        rw [hfc]
        cases ht : t.filter (fun x => decide (p x)) with
        | nil => simp [ht]
        | cons y ys =>
            rw [List.getLast?_cons_cons]
            cases hg : (y :: ys).getLast? with
            | none => simp at hg
            | some z => simp [Option.or]
      · rw [if_neg hp]
        have hfc : (r :: t).filter (fun x => decide (p x)) =
            t.filter (fun x => decide (p x)) := by
          simp [List.filter_cons, hp]
        rw [hfc]

/-- C8: capability lookup returns NULL for an unknown identity, scans
the whole catalog so that the last entry with a matching name wins, and
`get_platform_data` computes its result once and returns the cached
value unchanged on every later call. -/
theorem C8_catalog_last_match_cached :
    (lookupPlatformData none = none) ∧
    (∀ t : String, lookupPlatformData (some t) =
       (platform_data_map.filter (fun r => r.name = t)).getLast?) ∧
    (∀ c pt, get_platform_data (some c) pt = (c, some c)) ∧
    (∀ pt, get_platform_data none pt =
       (lookupPlatformData pt, some (lookupPlatformData pt))) := by
  refine ⟨rfl, ?_, ?_, ?_⟩
  · intro t
    show scanPlatformMap t = _
    unfold scanPlatformMap
    rw [foldl_scan_last (fun r => r.name = t) platform_data_map none, Option.or_none]
  · intro c pt; rfl
  · intro pt; rfl

/-- C7: the first `get_platform_type` call on a descriptor file whose
content "ab" has no trailing newline caches the string "ab" followed by
the byte 0xFF - the EOF return of `fgetc` stored through a `char` - and
not the first line "ab" itself; later calls return the cached value
regardless of the filesystem. -/
theorem C7_eof_byte_appended :
    get_platform_type none (.ok ['a', 'b']) =
      (some (String.mk ['a', 'b', Char.ofNat 255]),
       some (some (String.mk ['a', 'b', Char.ofNat 255]))) ∧
    (some (String.mk ['a', 'b', Char.ofNat 255]) : Option String) ≠ some "ab" ∧
    (∀ c fs, get_platform_type (some c) fs = (c, some c)) := by
  exact ⟨rfl, by decide, fun c fs => rfl⟩

/-- Specification-side description of what the code's tail parse
accepts: the two final characters must be two decimal digits, or one
whitespace or plus character followed by a decimal digit (value of that
digit), or a minus followed by a decimal digit (negated digit value);
anything else - in particular the hexadecimal digits a-f - is rejected. -/
def tailParseSpec (c1 c2 : Char) : Option Int :=
  if c1.isDigit ∧ c2.isDigit then
    some (((c1.toNat - 48) * 10 + (c2.toNat - 48) : Nat) : Int)
  else if (isSpaceC c1 ∨ c1 = '+') ∧ c2.isDigit then
    some ((c2.toNat - 48 : Nat) : Int)
  else if c1 = '-' ∧ c2.isDigit then
    some (-((c2.toNat - 48 : Nat) : Int))
  else none

/-- C whitespace characters are not decimal digits. -/
lemma isSpaceC_not_digit {c : Char} (h : isSpaceC c = true) : c.isDigit = false := by
  simp only [isSpaceC, Bool.or_eq_true, decide_eq_true_eq] at h
  obtain ((((h | h) | h) | h) | h) | h := h <;> subst h <;> decide

/-- The code's strtol-based parse of the 2-character tail agrees with
the specification-side case table `tailParseSpec`. -/
lemma strtol10_pair (c1 c2 : Char) :
    (if (strtol10 [c1, c2]).2 ≠ 2 then (-22 : Int) else (strtol10 [c1, c2]).1) =
      (match tailParseSpec c1 c2 with | some v => v | none => (-22 : Int)) := by
  by_cases hs1 : isSpaceC c1 = true
  · have hd1 : c1.isDigit = false := isSpaceC_not_digit hs1
    by_cases hs2 : isSpaceC c2 = true
    · have hd2 : c2.isDigit = false := isSpaceC_not_digit hs2
      simp [strtol10, tailParseSpec, List.takeWhile, hs1, hs2, hd1, hd2]
    · by_cases hm2 : c2 = '-'
      · subst hm2
        simp [strtol10, tailParseSpec, List.takeWhile, hs1, hs2, hd1]
      · by_cases hp2 : c2 = '+'
        · subst hp2
          simp [strtol10, tailParseSpec, List.takeWhile, hs1, hs2, hd1]
        · by_cases hd2 : c2.isDigit = true
          · simp [strtol10, tailParseSpec, List.takeWhile, hs1, hs2, hd1, hd2, hm2, hp2,
              digitsVal]
          · simp [strtol10, tailParseSpec, List.takeWhile, hs1, hs2, hd1, hd2, hm2, hp2]
  · by_cases hm1 : c1 = '-'
    · subst hm1
      by_cases hd2 : c2.isDigit = true
      · simp [strtol10, tailParseSpec, List.takeWhile, hs1, hd2, digitsVal]
      · simp [strtol10, tailParseSpec, List.takeWhile, hs1, hd2]
    · by_cases hp1 : c1 = '+'
      · subst hp1
        by_cases hd2 : c2.isDigit = true
        · simp [strtol10, tailParseSpec, List.takeWhile, hs1, hd2, digitsVal]
        · simp [strtol10, tailParseSpec, List.takeWhile, hs1, hd2]
      · by_cases hd1 : c1.isDigit = true
        · by_cases hd2 : c2.isDigit = true
          · simp [strtol10, tailParseSpec, List.takeWhile, hs1, hm1, hp1, hd1, hd2,
              digitsVal]
          · simp [strtol10, tailParseSpec, List.takeWhile, hs1, hm1, hp1, hd1, hd2]
        · simp [strtol10, tailParseSpec, List.takeWhile, hs1, hm1, hp1, hd1]

/-- A 19-character list dropped at 17 is exactly its two last
characters. -/
lemma drop17_of_len19 {cs : List Char} (h : cs.length = 19) :
    cs.drop 17 = [cs.getD 17 ' ', cs.getD 18 ' '] := by
  have h17 : 17 < cs.length := by omega
  have h18 : 18 < cs.length := by omega
  rw [List.drop_eq_getElem_cons h17, List.drop_eq_getElem_cons h18]
  have h19 : cs.drop 19 = [] := by
    apply List.drop_eq_nil_of_le; omega
  rw [h19]
  simp [List.getD_eq_getElem?_getD, List.getElem?_eq_getElem h17, List.getElem?_eq_getElem h18]

/-- C2 (amended): `get_rail_vf_idx` accepts a GUID string exactly when
its length is 19, character 14 is a colon, and the final two characters
form a complete base-10 strtol parse per `tailParseSpec`; the returned
slot is that decimal value.  Hexadecimal digit groups are not validated
anywhere, and a hex tail such as "ff" is a format error rather than the
value 255. -/
theorem C2_slot_parse_is_decimal (tag : Nat) (g : String) :
    get_rail_vf_idx ⟨tag, some g⟩ =
      if g.data.length = 19 ∧ g.data.getD 14 ' ' = ':' then
        (match tailParseSpec (g.data.getD 17 ' ') (g.data.getD 18 ' ') with
         | some v => v
         | none => (-22 : Int))
      else -22 := by
  show (if g.data.length ≠ 19 then (-22 : Int)
        else if g.data.getD 14 ' ' ≠ ':' then -22
        else if (strtol10 (g.data.drop 17)).2 ≠ 2 then -22
        else (strtol10 (g.data.drop 17)).1) = _
  by_cases hl : g.data.length = 19
  · rw [if_neg (not_not_intro hl)]
    by_cases hc : g.data.getD 14 ' ' = ':'
    · rw [if_neg (not_not_intro hc), if_pos (And.intro hl hc), drop17_of_len19 hl]
      exact strtol10_pair _ _
    · rw [if_pos hc, if_neg (fun hand => hc hand.2)]
  · rw [if_pos hl, if_neg (fun hand => hl hand.1)]

/-- Counterexample to C2 as stated: "0000:0000:0000:00ff" is exactly 19
characters of case-insensitive hex in the claimed XXXX:XXXX:XXXX:XXXX
shape, so the claim requires acceptance with slot 255 = 0xff, but the
code returns the format error -EINVAL; conversely
"zzzz.zzzz.zzzz:zz42" fails the claimed format in fourteen positions
yet is accepted with value 42. -/
theorem C2_hex_tail_rejected_nonhex_accepted :
    get_rail_vf_idx ⟨0, some "0000:0000:0000:00ff"⟩ = -22 ∧
    (-22 : Int) ≠ 255 ∧
    get_rail_vf_idx ⟨0, some "zzzz.zzzz.zzzz:zz42"⟩ = 42 := by
  exact ⟨by decide, by decide, by decide⟩

/-- A concrete slot-0 descriptor discovered first. -/
def cexRail0 : RailInfo := ⟨0, some "0000:0000:0000:0000"⟩

/-- A concrete slot-0 descriptor discovered second. -/
def cexRail1 : RailInfo := ⟨1, some "0000:0000:0000:0100"⟩

/-- A concrete slot-1 descriptor discovered third. -/
def cexRail2 : RailInfo := ⟨2, some "0000:0000:0000:0001"⟩

/-- A concrete slot-1 descriptor discovered fourth. -/
def cexRail3 : RailInfo := ⟨3, some "0000:0000:0000:0101"⟩

/-- Counterexample to C1 as stated: on a 4-rail list with GUID slots
(0,0,1,1) in discovery order the code returns the list unchanged, so
output position 1 holds the second slot-0 descriptor; the claim instead
demands slot-0 descriptors at positions 0 and 2 and slot-1 descriptors
at positions 1 and 3 (interleaving), which this output violates at
position 1. -/
theorem C1_no_interleaving_cex :
    platform_sort_rails [cexRail0, cexRail1, cexRail2, cexRail3] 4 =
      some [cexRail0, cexRail1, cexRail2, cexRail3] ∧
    get_rail_vf_idx cexRail1 = 0 ∧
    [cexRail0, cexRail1, cexRail2, cexRail3].get? 1 = some cexRail1 ∧
    cexRail1 ≠ cexRail2 ∧ cexRail1 ≠ cexRail3 := by
  exact ⟨by decide, by decide, by decide, by decide, by decide⟩

/-- C1 (amended): `platform_sort_rails` with `num_rails = 4` on a list
whose descriptors carry GUID slots (0,0,1,1) in discovery order returns
a permutation of the input in which the two slot-0 descriptors occupy
output positions 0 and 1 (in discovery order) and the two slot-1
descriptors occupy positions 2 and 3: each slot counter starts at its
base (0 for slot 0, 2 for slot 1) and increments by one, producing
contiguous per-slot blocks, not alternating positions.  For this input
the resulting permutation is the identity. -/
theorem C1_slot_blocks (a b c d : RailInfo)
    (ha : get_rail_vf_idx a = 0) (hb : get_rail_vf_idx b = 0)
    (hc : get_rail_vf_idx c = 1) (hd : get_rail_vf_idx d = 1) :
    platform_sort_rails [a, b, c, d] 4 = some [a, b, c, d] := by
  have e1 : sortLoop [a, b, c, d] [none, none, none, none] 0 2 4 =
      sortLoop [b, c, d] [some a, none, none, none] 1 2 3 := by
    simp [sortLoop, ha]
  have e2 : sortLoop [b, c, d] [some a, none, none, none] 1 2 3 =
      sortLoop [c, d] [some a, some b, none, none] 2 2 2 := by
    simp [sortLoop, hb]
  have e3 : sortLoop [c, d] [some a, some b, none, none] 2 2 2 =
      sortLoop [d] [some a, some b, some c, none] 2 3 1 := by
    simp [sortLoop, hc]
  have e4 : sortLoop [d] [some a, some b, some c, none] 2 3 1 =
      sortLoop [] [some a, some b, some c, some d] 2 4 0 := by
    simp [sortLoop, hd]
  have hcore : sortRailsCore [a, b, c, d] 4 = SortResult.ok [a, b, c, d] := by
    unfold sortRailsCore
    rw [if_neg (by norm_num)]
    show (match sortLoop [a, b, c, d] [none, none, none, none] 0 2 4 with
          | LoopRes.err => SortResult.err
          | LoopRes.oob => SortResult.unspecified
          | LoopRes.done arr =>
              (match seqSlots arr with
               | some out => SortResult.ok out
               | none => SortResult.unspecified)) = SortResult.ok [a, b, c, d]
    rw [e1, e2, e3, e4]
    rfl
  unfold platform_sort_rails
  rw [hcore]

/-- Witness for C1 (amended) at four concrete descriptors with slots
(0,0,1,1). -/
theorem C1_slot_blocks_witness :
    platform_sort_rails
        [⟨10, some "0000:0000:0000:0000"⟩, ⟨11, some "0000:0000:0000:0200"⟩,
         ⟨12, some "0000:0000:0000:0001"⟩, ⟨13, some "0000:0000:0000:0201"⟩] 4 =
      some [⟨10, some "0000:0000:0000:0000"⟩, ⟨11, some "0000:0000:0000:0200"⟩,
            ⟨12, some "0000:0000:0000:0001"⟩, ⟨13, some "0000:0000:0000:0201"⟩] :=
  C1_slot_blocks _ _ _ _ (by decide) (by decide) (by decide) (by decide)

/-- Environment preservation: every binding present in the first
environment is present with the same value in the second. -/
def EnvPres (e1 e2 : String → Option String) : Prop :=
  ∀ name v, e1 name = some v → e2 name = some v

lemma envPres_refl (e : String → Option String) : EnvPres e e := fun _ _ h => h

lemma envPres_trans {e1 e2 e3 : String → Option String}
    (h12 : EnvPres e1 e2) (h23 : EnvPres e2 e3) : EnvPres e1 e3 :=
  fun n v h => h23 n v (h12 n v h)

/-- `setenv` with overwrite 0 never changes an existing binding. -/
lemma setenvF_pres_false (e : String → Option String) (n v : String) :
    EnvPres e (setenvF e n v false) := by
  intro name x hx
  unfold setenvF
  by_cases hn : (e n).isNone
  · simp only [hn, Bool.false_or, if_true]
    by_cases hname : name = n
    · subst hname; rw [hx] at hn; simp at hn
    · simp [hname, hx]
  · simp [hn, hx]

/-- `setenv` with overwrite 1 on a name known to be unbound never
changes an existing binding. -/
lemma setenvF_pres_absent (e : String → Option String) (n v : String) (h : e n = none) :
    EnvPres e (setenvF e n v true) := by
  intro name x hx
  unfold setenvF
  simp only [Bool.true_or, if_true]
  by_cases hname : name = n
  · subst hname; rw [hx] at h; exact absurd h (by simp)
  · simp [hname, hx]

lemma init_provider_parts (st : InitState) :
    (init_provider st).1.env = st.env ∧
    (init_provider st).1.nic_dup_conns = st.nic_dup_conns ∧
    (init_provider st).1.net_latency = st.net_latency ∧
    (init_provider st).1.selected_protocol = st.selected_protocol ∧
    (init_provider st).1.domain_per_thread = st.domain_per_thread := by
  unfold init_provider
  split <;> exact ⟨rfl, rfl, rfl, rfl, rfl⟩

lemma init_provider_filter (st : InitState) (h : st.env "FI_PROVIDER" ≠ none) :
    (init_provider st).1.provider_filter = st.provider_filter := by
  unfold init_provider
  split
  · rename_i heq; exact absurd heq h
  · rfl

lemma init_forksafe_parts (p : InitParams) (st : InitState) :
    EnvPres st.env (init_forksafe p st).env ∧
    (init_forksafe p st).provider_filter = st.provider_filter ∧
    (init_forksafe p st).nic_dup_conns = st.nic_dup_conns ∧
    (init_forksafe p st).net_latency = st.net_latency ∧
    (init_forksafe p st).selected_protocol = st.selected_protocol ∧
    (init_forksafe p st).domain_per_thread = st.domain_per_thread := by
  unfold init_forksafe
  set fv := if p.fi_major > 1 ∨ (p.fi_major = 1 ∧ p.fi_minor ≥ 13)
    then "FI_EFA_FORK_SAFE" else "RDMAV_FORK_SAFE" with hfv
  by_cases hn : (st.env fv).isNone
  · rw [if_pos hn]
    exact ⟨setenvF_pres_absent st.env fv "1" (Option.isNone_iff_eq_none.mp hn),
      rfl, rfl, rfl, rfl, rfl⟩
  · rw [if_neg hn]
    exact ⟨envPres_refl _, rfl, rfl, rfl, rfl, rfl⟩

lemma configure_nvls_env_pres (e : String → Option String) (sym : Option (Option Int)) :
    EnvPres e (configure_nvls_option e sym).2 := by
  unfold configure_nvls_option
  cases he : e "NCCL_NVLS_ENABLE" with
  | some v => exact envPres_refl _
  | none =>
      cases sym with
      | none => exact envPres_refl _
      | some s =>
          cases s with
          | none => exact envPres_refl _
          | some v =>
              show EnvPres e
                ((if v < 21805 then ((0 : Int), setenvF e "NCCL_NVLS_ENABLE" "0" true)
                  else (0, e)).2)
              by_cases hv : v < 21805
              · rw [if_pos hv]
                exact setenvF_pres_absent e _ _ he
              · rw [if_neg hv]
                exact envPres_refl _

lemma init_nvls_parts (p : InitParams) (st : InitState) :
    EnvPres st.env (init_nvls p st).2.env ∧
    (init_nvls p st).2.provider_filter = st.provider_filter ∧
    (init_nvls p st).2.nic_dup_conns = st.nic_dup_conns ∧
    (init_nvls p st).2.net_latency = st.net_latency ∧
    (init_nvls p st).2.selected_protocol = st.selected_protocol ∧
    (init_nvls p st).2.domain_per_thread = st.domain_per_thread :=
  ⟨configure_nvls_env_pres st.env p.nvls_sym, rfl, rfl, rfl, rfl, rfl⟩

lemma init_flush_parts (pd : Option ec2_platform_data) (st : InitState) :
    EnvPres st.env (init_flush pd st).env ∧
    (init_flush pd st).provider_filter = st.provider_filter ∧
    (init_flush pd st).nic_dup_conns = st.nic_dup_conns ∧
    (init_flush pd st).net_latency = st.net_latency ∧
    (init_flush pd st).selected_protocol = st.selected_protocol ∧
    (init_flush pd st).domain_per_thread = st.domain_per_thread := by
  unfold init_flush
  split
  · exact ⟨setenvF_pres_false _ _ _, rfl, rfl, rfl, rfl, rfl⟩
  · exact ⟨envPres_refl _, rfl, rfl, rfl, rfl, rfl⟩

lemma init_chunks_parts (st : InitState) :
    EnvPres st.env (init_chunks st).env ∧
    (init_chunks st).provider_filter = st.provider_filter ∧
    (init_chunks st).nic_dup_conns = st.nic_dup_conns ∧
    (init_chunks st).net_latency = st.net_latency ∧
    (init_chunks st).selected_protocol = st.selected_protocol ∧
    (init_chunks st).domain_per_thread = st.domain_per_thread :=
  ⟨envPres_trans (setenvF_pres_false st.env "NCCL_NVLSTREE_MAX_CHUNKSIZE" "524288")
     (setenvF_pres_false _ "NCCL_NVLS_CHUNKSIZE" "524288"),
   rfl, rfl, rfl, rfl, rfl⟩

lemma init_topo_parts (p : InitParams) (pd : Option ec2_platform_data) (st : InitState) :
    EnvPres st.env (init_topo p pd st).2.env ∧
    (init_topo p pd st).2.provider_filter = st.provider_filter ∧
    (init_topo p pd st).2.nic_dup_conns = st.nic_dup_conns ∧
    (init_topo p pd st).2.net_latency = st.net_latency ∧
    (init_topo p pd st).2.selected_protocol = st.selected_protocol ∧
    (init_topo p pd st).2.domain_per_thread = st.domain_per_thread := by
  unfold init_topo
  split
  · exact ⟨envPres_refl _, rfl, rfl, rfl, rfl, rfl⟩
  · rename_i he
    split
    · split
      · split_ifs with hp
        · exact ⟨envPres_refl _, rfl, rfl, rfl, rfl, rfl⟩
        · exact ⟨setenvF_pres_absent st.env _ _ he, rfl, rfl, rfl, rfl, rfl⟩
      · exact ⟨envPres_refl _, rfl, rfl, rfl, rfl, rfl⟩
    · exact ⟨envPres_refl _, rfl, rfl, rfl, rfl, rfl⟩

lemma init_tunables_env_filter (p : InitParams) (pd : Option ec2_platform_data)
    (se : Bool) (st : InitState) :
    (init_tunables p pd se st).env = st.env ∧
    (init_tunables p pd se st).provider_filter = st.provider_filter := by
  unfold init_tunables
  cases pd <;> split_ifs <;> exact ⟨rfl, rfl⟩

lemma init_tunables_dup (p : InitParams) (pd : Option ec2_platform_data)
    (se : Bool) (st : InitState) (h : st.nic_dup_conns ≠ 0) :
    (init_tunables p pd se st).nic_dup_conns = st.nic_dup_conns := by
  unfold init_tunables
  cases pd <;> split_ifs <;>
    first
      | rfl
      | exact absurd (by assumption : st.nic_dup_conns = 0) h

lemma init_tunables_latency (p : InitParams) (pd : Option ec2_platform_data)
    (se : Bool) (st : InitState) (h : 0 ≤ p.ofi_net_latency) :
    (init_tunables p pd se st).net_latency = st.net_latency := by
  unfold init_tunables
  cases pd <;> split_ifs <;>
    first
      | rfl
      | exact absurd (by assumption : p.ofi_net_latency < 0) (not_lt.mpr h)

lemma init_tunables_protocol (p : InitParams) (pd : Option ec2_platform_data)
    (se : Bool) (st : InitState) (h : p.ofi_protocol ≠ none) :
    (init_tunables p pd se st).selected_protocol = st.selected_protocol := by
  unfold init_tunables
  cases pd <;> split_ifs <;>
    first
      | rfl
      | exact absurd (by assumption : se = true ∧ p.ofi_protocol = none).2 h

lemma init_tunables_dpt (p : InitParams) (pd : Option ec2_platform_data)
    (se : Bool) (st : InitState) (h : p.ofi_domain_per_thread ≠ -1) :
    (init_tunables p pd se st).domain_per_thread = p.ofi_domain_per_thread := by
  unfold init_tunables
  cases pd <;> split_ifs <;> rfl

/-- C6 (amended): `platform_init` never changes an environment variable
the user has already set (any binding present on entry survives with
its value), leaves the caller's provider filter alone when FI_PROVIDER
is set, and preserves every configurable whose entry value is not its
unset sentinel: a nonzero duplicate-connection count, a non-negative
latency parameter, a present protocol parameter, and a
domain-per-thread parameter other than -1 (which, on a completed run,
is copied verbatim into the global). -/
theorem C6_user_overrides_respected (p : InitParams) (st : InitState) :
    (∀ name v, st.env name = some v → (platform_init p st).2.env name = some v) ∧
    (st.env "FI_PROVIDER" ≠ none →
       (platform_init p st).2.provider_filter = st.provider_filter) ∧
    (st.nic_dup_conns ≠ 0 → (platform_init p st).2.nic_dup_conns = st.nic_dup_conns) ∧
    (0 ≤ p.ofi_net_latency → (platform_init p st).2.net_latency = st.net_latency) ∧
    (p.ofi_protocol ≠ none →
       (platform_init p st).2.selected_protocol = st.selected_protocol) ∧
    ((platform_init p st).1 = 0 → p.ofi_domain_per_thread ≠ -1 →
       (platform_init p st).2.domain_per_thread = p.ofi_domain_per_thread) := by
  obtain ⟨p1e, p1d, p1l, p1p, p1t⟩ := init_provider_parts st
  set pr := init_provider st with hpr
  set stA := init_forksafe p pr.1 with hA
  obtain ⟨f1e, f1f, f1d, f1l, f1p, f1t⟩ := init_forksafe_parts p pr.1
  set nv := init_nvls p stA with hnvs
  obtain ⟨n1e, n1f, n1d, n1l, n1p, n1t⟩ := init_nvls_parts p stA
  set pd := lookupPlatformData p.platform_type with hpd
  set stB := init_flush pd nv.2 with hB
  obtain ⟨b1e, b1f, b1d, b1l, b1p, b1t⟩ := init_flush_parts pd nv.2
  set stC := init_chunks stB with hC
  obtain ⟨c1e, c1f, c1d, c1l, c1p, c1t⟩ := init_chunks_parts stB
  set tp := init_topo p pd stC with hT
  obtain ⟨t1e, t1f, t1d, t1l, t1p, t1t⟩ := init_topo_parts p pd stC
  obtain ⟨u1e, u1f⟩ := init_tunables_env_filter p pd pr.2 tp.2
  have hpi : platform_init p st =
      (if nv.1 ≠ 0 then (nv.1, nv.2)
       else if tp.1 ≠ 0 then (tp.1, tp.2)
       else (0, init_tunables p pd pr.2 tp.2)) := rfl
  rw [hpi]
  by_cases h1 : nv.1 ≠ 0
  · rw [if_pos h1]
    refine ⟨?_, ?_, ?_, ?_, ?_, ?_⟩
    · intro name v hv
      exact n1e name v (f1e name v (by rw [p1e]; exact hv))
    · intro h; rw [n1f, f1f, init_provider_filter st h]
    · intro h; rw [n1d, f1d, p1d]
    · intro h; rw [n1l, f1l, p1l]
    · intro h; rw [n1p, f1p, p1p]
    · intro hz; exact absurd hz h1
  · rw [if_neg h1]
    by_cases h2 : tp.1 ≠ 0
    · rw [if_pos h2]
      refine ⟨?_, ?_, ?_, ?_, ?_, ?_⟩
      · intro name v hv
        exact t1e _ _ (c1e _ _ (b1e _ _ (n1e _ _ (f1e _ _ (by rw [p1e]; exact hv)))))
      · intro h; rw [t1f, c1f, b1f, n1f, f1f, init_provider_filter st h]
      · intro h; rw [t1d, c1d, b1d, n1d, f1d, p1d]
      · intro h; rw [t1l, c1l, b1l, n1l, f1l, p1l]
      · intro h; rw [t1p, c1p, b1p, n1p, f1p, p1p]
      · intro hz; exact absurd hz h2
    · rw [if_neg h2]
      refine ⟨?_, ?_, ?_, ?_, ?_, ?_⟩
      · intro name v hv
        rw [u1e]
        exact t1e _ _ (c1e _ _ (b1e _ _ (n1e _ _ (f1e _ _ (by rw [p1e]; exact hv)))))
      · intro h; rw [u1f, t1f, c1f, b1f, n1f, f1f, init_provider_filter st h]
      · intro h
        have hd2 : tp.2.nic_dup_conns ≠ 0 := by
          rw [t1d, c1d, b1d, n1d, f1d, p1d]; exact h
        rw [init_tunables_dup p pd pr.2 tp.2 hd2, t1d, c1d, b1d, n1d, f1d, p1d]
      · intro h
        rw [init_tunables_latency p pd pr.2 tp.2 h, t1l, c1l, b1l, n1l, f1l, p1l]
      · intro h
        rw [init_tunables_protocol p pd pr.2 tp.2 h, t1p, c1p, b1p, n1p, f1p, p1p]
      · intro _ h
        exact init_tunables_dpt p pd pr.2 tp.2 h

/-- An initialization run on a p3dn.24xlarge host with every parameter
at its unset sentinel. -/
def cexInitParams : InitParams :=
  ⟨some "p3dn.24xlarge", 1, 18, none, -1, none, -1, "/opt/xml"⟩

/-- An entry state whose duplicate-connection count is the explicit
value 0 - indistinguishable from the unset sentinel. -/
def cexInitState : InitState := ⟨fun _ => none, none, 0, 150, none, 0⟩

/-- Counterexample to C6 as stated: the duplicate-connection count is
read through a global whose unset sentinel is 0, so a user who
explicitly configures 0 duplicate connections on a p3dn.24xlarge host
has that value replaced by the platform default 4 - the claim promised
every pre-set value, 0 included, would be left unchanged. -/
theorem C6_explicit_zero_dup_conns_overwritten :
    cexInitState.nic_dup_conns = 0 ∧
    (platform_init cexInitParams cexInitState).2.nic_dup_conns = 4 ∧
    (4 : Int) ≠ 0 := by
  refine ⟨rfl, by decide, by decide⟩

/-- An initialization run with every override pre-set by the user. -/
def wInitParams : InitParams :=
  ⟨some "p3dn.24xlarge", 1, 18, none, 42, some "SENDRECV", 1, "/opt/xml"⟩

/-- An entry state with user-set environment bindings and non-sentinel
tunable values. -/
def wInitState : InitState :=
  ⟨fun s => if s = "NCCL_TOPO_FILE" then some "mine"
            else if s = "FI_PROVIDER" then some "efa" else none,
   some "keep", 2, 99, some "RDMA", 5⟩

/-- Witness for C6 (amended) at a concrete fully-overridden run. -/
theorem C6_user_overrides_respected_witness :
    (platform_init wInitParams wInitState).2.env "NCCL_TOPO_FILE" = some "mine" ∧
    (platform_init wInitParams wInitState).2.provider_filter = wInitState.provider_filter ∧
    (platform_init wInitParams wInitState).2.nic_dup_conns = wInitState.nic_dup_conns ∧
    (platform_init wInitParams wInitState).2.net_latency = wInitState.net_latency ∧
    (platform_init wInitParams wInitState).2.selected_protocol =
      wInitState.selected_protocol ∧
    (platform_init wInitParams wInitState).2.domain_per_thread = 1 := by
  obtain ⟨e1, e2, e3, e4, e5, e6⟩ := C6_user_overrides_respected wInitParams wInitState
  exact ⟨e1 "NCCL_TOPO_FILE" "mine" rfl, e2 (by decide), e3 (by decide), e4 (by decide),
    e5 (by decide), e6 (by decide) (by decide)⟩

/-- Number of descriptors of a list whose extracted slot equals `s`. -/
def cntSlot (s : Int) (l : List RailInfo) : Nat :=
  (l.filter (fun d => get_rail_vf_idx d = s)).length

/-- Specification-side target position of the descriptor at index `i`:
its slot base (0 for slot 0, 2 for slot 1) plus the number of earlier
descriptors with the same slot - the counting formulation of the
running `rail_map` counters. -/
def targetPos (l : List RailInfo) (i : Nat) : Nat :=
  match l.get? i with
  | some d => if get_rail_vf_idx d = 0 then cntSlot 0 (l.take i) else 2 + cntSlot 1 (l.take i)
  | none => 0

/-- The descriptor at index `i` processes cleanly in an `n`-rail run:
it exists, its slot is 0 or 1, its target position is inside the
scratch array, and no earlier descriptor maps to the same position. -/
def goodStep (n : Nat) (l : List RailInfo) (i : Nat) : Prop :=
  ∃ d, l.get? i = some d ∧ (get_rail_vf_idx d = 0 ∨ get_rail_vf_idx d = 1) ∧
    targetPos l i < n ∧ ∀ k, k < i → targetPos l k ≠ targetPos l i

/-- The descriptor at index `i` triggers one of the failure causes the
claim lists: its identifier file is unreadable, its identifier fails
the format check, its slot is out of range (all three: slot value
outside [0,2)), or its computed target position is already occupied by
an earlier descriptor. -/
def badStep (l : List RailInfo) (i : Nat) : Prop :=
  (∃ d, l.get? i = some d ∧ (get_rail_vf_idx d < 0 ∨ 2 ≤ get_rail_vf_idx d)) ∨
  (∃ d, l.get? i = some d ∧ (get_rail_vf_idx d = 0 ∨ get_rail_vf_idx d = 1) ∧
    ∃ k, k < i ∧ targetPos l k = targetPos l i)

/-- Extending a prefix by one descriptor adds one to its slot count and
leaves the other count unchanged. -/
lemma cntSlot_take_succ (s : Int) (l : List RailInfo) (i : Nat) (d : RailInfo)
    (h : l.get? i = some d) :
    cntSlot s (l.take (i + 1)) =
      cntSlot s (l.take i) + (if get_rail_vf_idx d = s then 1 else 0) := by
  have h2 : l[i]? = some d := by rw [← List.get?_eq_getElem?]; exact h
  unfold cntSlot
  rw [List.take_succ, h2]
  by_cases hds : get_rail_vf_idx d = s <;>
    simp [List.filter_append, Option.toList, hds]

/-- Loop invariant of the rail-ordering scan: after `i` clean steps the
scratch array has length `n`, a position is occupied exactly when some
earlier descriptor targets it, and the two counters equal the slot
counts of the processed prefix offset by their bases. -/
lemma sortLoop_prefix (l : List RailInfo) (n : Nat) :
    ∀ i, i ≤ n → (∀ j, j < i → goodStep n l j) →
    ∃ a : List (Option RailInfo),
      a.length = n ∧
      (∀ j, j < n → ((a.getD j none).isSome = true ↔ ∃ k, k < i ∧ targetPos l k = j)) ∧
      sortLoop l (List.replicate n none) 0 2 n =
        sortLoop (l.drop i) a (cntSlot 0 (l.take i)) (2 + cntSlot 1 (l.take i)) (n - i) := by
  intro i
  induction i with
  | zero =>
      intro _ _
      refine ⟨List.replicate n none, List.length_replicate n none, ?_, ?_⟩
      · intro j hj
        constructor
        · intro hs
          exfalso
          rw [List.getD_eq_getElem?_getD, List.getElem?_replicate, if_pos hj] at hs
          simp at hs
        · rintro ⟨k, hk, _⟩
          exact absurd hk (Nat.not_lt_zero k)
      · simp [cntSlot]
  | succ i ih =>
      intro hin hpre
      obtain ⟨a, halen, haocc, haeq⟩ :=
        ih (Nat.le_of_succ_le hin) (fun j hj => hpre j (Nat.lt_succ_of_lt hj))
      obtain ⟨d, hd, hvf, hlt, hdist⟩ := hpre i (Nat.lt_succ_self i)
      have hgel : l[i]? = some d := by rw [← List.get?_eq_getElem?]; exact hd
      have hval : i < l.length := (List.getElem?_eq_some_iff.mp hgel).1
      have hdrop : l.drop i = d :: l.drop (i + 1) := by
        rw [List.drop_eq_getElem_cons hval]
        congr 1
        have h2 := hgel
        rwa [List.getElem?_eq_getElem hval, Option.some_inj] at h2
      have hfuel : n - i = (n - (i + 1)) + 1 := by omega
      have htp : targetPos l i =
          (if get_rail_vf_idx d = 0 then cntSlot 0 (l.take i)
           else 2 + cntSlot 1 (l.take i)) := by
        unfold targetPos
        rw [hd]
      have hlen2 : targetPos l i < a.length := by rw [halen]; exact hlt
      have hnodup : ¬∃ k, k < i ∧ targetPos l k = targetPos l i := by
        rintro ⟨k, hk, hkp⟩
        exact hdist k hk hkp
      have hsome : (a.getD (targetPos l i) none).isSome = false := by
        cases hb : (a.getD (targetPos l i) none).isSome
        · rfl
        · exact absurd ((haocc (targetPos l i) hlt).mp hb) hnodup
      refine ⟨a.set (targetPos l i) (some d), ?_, ?_, ?_⟩
      · rw [List.length_set]; exact halen
      · intro j hj
        by_cases hje : j = targetPos l i
        · have hset : (a.set (targetPos l i) (some d)).getD j none = some d := by
            rw [hje, List.getD_eq_getElem?_getD, List.getElem?_set_self hlen2]
            rfl
          rw [hset]
          constructor
          · intro _
            exact ⟨i, Nat.lt_succ_self i, hje.symm⟩
          · intro _
            rfl
        · have hset : (a.set (targetPos l i) (some d)).getD j none = a.getD j none := by
            rw [List.getD_eq_getElem?_getD,
              List.getElem?_set_ne (fun he => hje he.symm), ← List.getD_eq_getElem?_getD]
          rw [hset, haocc j hj]
          constructor
          · rintro ⟨k, hk, hkp⟩
            exact ⟨k, Nat.lt_succ_of_lt hk, hkp⟩
          · rintro ⟨k, hk, hkp⟩
            rcases Nat.lt_succ_iff_lt_or_eq.mp hk with hk2 | hk2
            · exact ⟨k, hk2, hkp⟩
            · subst hk2
              exact absurd hkp.symm hje
      · rw [haeq, hdrop, hfuel]
        have hnotbad : ¬(get_rail_vf_idx d < 0 ∨ 2 ≤ get_rail_vf_idx d) := by
          rcases hvf with h | h <;> rw [h] <;> decide
        rcases hvf with h0 | h1
        · have htp2 : targetPos l i = cntSlot 0 (l.take i) := by rw [htp, if_pos h0]
          have hc0 : cntSlot 0 (l.take (i + 1)) = cntSlot 0 (l.take i) + 1 := by
            rw [cntSlot_take_succ 0 l i d hd, if_pos h0]
          have hc1 : cntSlot 1 (l.take (i + 1)) = cntSlot 1 (l.take i) := by
            rw [cntSlot_take_succ 1 l i d hd, if_neg (by rw [h0]; decide)]
            omega
          have hb1 : ¬(a.length ≤ cntSlot 0 (l.take i)) := by
            rw [← htp2]; exact not_le.mpr hlen2
          have hb2 : ¬((a.getD (cntSlot 0 (l.take i)) none).isSome = true) := by
            rw [← htp2, hsome]; exact Bool.false_ne_true
          simp only [sortLoop, if_neg hnotbad, if_pos h0]
          rw [if_neg hb1, if_neg hb2, htp2, hc0, hc1]
        · have h1ne0 : get_rail_vf_idx d ≠ 0 := by rw [h1]; decide
          have htp2 : targetPos l i = 2 + cntSlot 1 (l.take i) := by
            rw [htp, if_neg h1ne0]
          have hc0 : cntSlot 0 (l.take (i + 1)) = cntSlot 0 (l.take i) := by
            rw [cntSlot_take_succ 0 l i d hd, if_neg h1ne0]
            omega
          have hc1 : cntSlot 1 (l.take (i + 1)) = cntSlot 1 (l.take i) + 1 := by
            rw [cntSlot_take_succ 1 l i d hd, if_pos h1]
          have hb1 : ¬(a.length ≤ 2 + cntSlot 1 (l.take i)) := by
            rw [← htp2]; exact not_le.mpr hlen2
          have hb2 : ¬((a.getD (2 + cntSlot 1 (l.take i)) none).isSome = true) := by
            rw [← htp2, hsome]; exact Bool.false_ne_true
          simp only [sortLoop, if_neg hnotbad, if_neg h1ne0]
          rw [if_neg hb1, if_neg hb2, htp2, hc0, hc1, Nat.add_assoc]

/-- C4 (amended): whenever `platform_sort_rails` fails - a clean prefix
followed by a descriptor whose identifier file cannot be read, whose
identifier fails the format check, whose slot is out of [0,2), or
whose computed target position is already occupied - the run takes the
error exit and the caller's original descriptor list is left untouched
(same head, same link order).  No error is propagated: the C function
returns void, so failure is observable only through the unchanged
list. -/
theorem C4_failure_atomic (l : List RailInfo) (n : Int) (i : Nat)
    (hn : 0 < n) (hi : i < n.toNat)
    (hpre : ∀ j, j < i → goodStep n.toNat l j)
    (hbad : badStep l i) :
    sortRailsCore l n = SortResult.err ∧ platform_sort_rails l n = some l := by
  obtain ⟨a, halen, haocc, haeq⟩ := sortLoop_prefix l n.toNat i (le_of_lt hi) hpre
  have hfuel : n.toNat - i = (n.toNat - (i + 1)) + 1 := by omega
  have herr : sortLoop (l.drop i) a (cntSlot 0 (l.take i)) (2 + cntSlot 1 (l.take i))
      (n.toNat - i) = LoopRes.err := by
    rcases hbad with ⟨d, hd, hbadvf⟩ | ⟨d, hd, hvf, k, hk, hkp⟩
    · have hgel : l[i]? = some d := by rw [← List.get?_eq_getElem?]; exact hd
      have hval : i < l.length := (List.getElem?_eq_some_iff.mp hgel).1
      have hdrop : l.drop i = d :: l.drop (i + 1) := by
        rw [List.drop_eq_getElem_cons hval]
        congr 1
        have h2 := hgel
        rwa [List.getElem?_eq_getElem hval, Option.some_inj] at h2
      rw [hdrop, hfuel]
      simp only [sortLoop, if_pos hbadvf]
    · have hgel : l[i]? = some d := by rw [← List.get?_eq_getElem?]; exact hd
      have hval : i < l.length := (List.getElem?_eq_some_iff.mp hgel).1
      have hdrop : l.drop i = d :: l.drop (i + 1) := by
        rw [List.drop_eq_getElem_cons hval]
        congr 1
        have h2 := hgel
        rwa [List.getElem?_eq_getElem hval, Option.some_inj] at h2
      have htp : targetPos l i =
          (if get_rail_vf_idx d = 0 then cntSlot 0 (l.take i)
           else 2 + cntSlot 1 (l.take i)) := by
        unfold targetPos
        rw [hd]
      obtain ⟨dk, hdk, hvfk, hltk, _⟩ := hpre k hk
      have hlt : targetPos l i < n.toNat := hkp ▸ hltk
      have hocc : (a.getD (targetPos l i) none).isSome = true :=
        (haocc (targetPos l i) hlt).mpr ⟨k, hk, hkp⟩
      have hlen2 : targetPos l i < a.length := by rw [halen]; exact hlt
      have hnotbad : ¬(get_rail_vf_idx d < 0 ∨ 2 ≤ get_rail_vf_idx d) := by
        rcases hvf with h | h <;> rw [h] <;> decide
      rw [hdrop, hfuel]
      rcases hvf with h0 | h1
      · have htp2 : targetPos l i = cntSlot 0 (l.take i) := by rw [htp, if_pos h0]
        have hb1 : ¬(a.length ≤ cntSlot 0 (l.take i)) := by
          rw [← htp2]; exact not_le.mpr hlen2
        have hb2 : (a.getD (cntSlot 0 (l.take i)) none).isSome = true := htp2 ▸ hocc
        simp only [sortLoop, if_neg hnotbad, if_pos h0]
        rw [if_neg hb1, if_pos hb2]
      · have h1ne0 : get_rail_vf_idx d ≠ 0 := by rw [h1]; decide
        have htp2 : targetPos l i = 2 + cntSlot 1 (l.take i) := by
          rw [htp, if_neg h1ne0]
        have hb1 : ¬(a.length ≤ 2 + cntSlot 1 (l.take i)) := by
          rw [← htp2]; exact not_le.mpr hlen2
        have hb2 : (a.getD (2 + cntSlot 1 (l.take i)) none).isSome = true := htp2 ▸ hocc
        simp only [sortLoop, if_neg hnotbad, if_neg h1ne0]
        rw [if_neg hb1, if_pos hb2]
  have hcore : sortRailsCore l n = SortResult.err := by
    unfold sortRailsCore
    rw [if_neg (by omega : ¬(n ≤ 0))]
    show (match sortLoop l (List.replicate n.toNat none) 0 2 n.toNat with
          | LoopRes.err => SortResult.err
          | LoopRes.oob => SortResult.unspecified
          | LoopRes.done arr =>
              (match seqSlots arr with
               | some out => SortResult.ok out
               | none => SortResult.unspecified)) = SortResult.err
    rw [haeq, herr]
  refine ⟨hcore, ?_⟩
  unfold platform_sort_rails
  rw [hcore]

/-- Witness for C4 (amended): a clean slot-0 descriptor followed by one
whose identifier file is unreadable; the two-rail sort errs and leaves
the list unchanged. -/
theorem C4_failure_atomic_witness :
    sortRailsCore [⟨21, some "0000:0000:0000:0000"⟩, ⟨22, none⟩] 2 = SortResult.err ∧
    platform_sort_rails [⟨21, some "0000:0000:0000:0000"⟩, ⟨22, none⟩] 2 =
      some [⟨21, some "0000:0000:0000:0000"⟩, ⟨22, none⟩] :=
  C4_failure_atomic _ 2 1 (by decide) (by decide)
    (fun j hj => by
      have hj0 : j = 0 := by omega
      subst hj0
      exact ⟨⟨21, some "0000:0000:0000:0000"⟩, rfl, by decide, by decide,
        fun k hk => absurd hk (Nat.not_lt_zero k)⟩)
    (Or.inl ⟨⟨22, none⟩, rfl, by decide⟩)

/-- Counterexample to C4 as stated: the claim also asserts that "an
error is propagated to the caller", but `platform_sort_rails` is
declared void.  On the failing input the list is indeed untouched and
the internal outcome is the error exit, yet the value returned to the
caller is identical to that of a succeeding call - the call is
indistinguishable from a successful sort that happened to be the
identity - so no error reaches the caller. -/
theorem C4_void_return_hides_error :
    sortRailsCore [⟨0, none⟩] 1 = SortResult.err ∧
    platform_sort_rails [⟨0, none⟩] 1 = some [⟨0, none⟩] ∧
    sortRailsCore [⟨5, some "0000:0000:0000:0000"⟩] 1 =
      SortResult.ok [⟨5, some "0000:0000:0000:0000"⟩] ∧
    platform_sort_rails_ret [⟨0, none⟩] 1 =
      platform_sort_rails_ret [⟨5, some "0000:0000:0000:0000"⟩] 1 := by
  exact ⟨by decide, by decide, by decide, rfl⟩
